import Mathlib

/-!
Shallow embedding of `bootstrap_contrast/bootstrap_tools.py`.

Samples and statistics are modelled over `ℚ`.  Floating-point non-finite
values (numpy `nan` / `inf`), which the source manipulates through
`np.isnan` and `np.nan_to_num`, are modelled by the four-constructor type
`FP`.  The external collaborators (the seaborn resampling primitive, the
scipy normal CDF `Φ` / inverse CDF `Φ⁻¹`, the floating-point power
routine `x ** 1.5`, and the five hypothesis-test services) are passed in
as function parameters, matching the spec's treatment of them as
black-box services.
-/

/-- Floating-point style value: a finite rational, plus or minus
infinity, or not-a-number. -/
inductive FP where
  | fin : ℚ → FP
  | inf : FP
  | ninf : FP
  | nan : FP
deriving DecidableEq, Repr

namespace FP

/-- IEEE-style addition on `FP` values. -/
def add : FP → FP → FP
  | nan, _ => nan
  | _, nan => nan
  | fin a, fin b => fin (a + b)
  | fin _, inf => inf
  | fin _, ninf => ninf
  | inf, fin _ => inf
  | ninf, fin _ => ninf
  | inf, inf => inf
  | ninf, ninf => ninf
  | inf, ninf => nan
  | ninf, inf => nan

/-- IEEE-style negation on `FP` values. -/
def neg : FP → FP
  | nan => nan
  | fin a => fin (-a)
  | inf => ninf
  | ninf => inf

/-- IEEE-style subtraction on `FP` values. -/
def sub (a b : FP) : FP := add a (neg b)

/-- IEEE-style multiplication on `FP` values; `0 * ∞ = nan`. -/
def mul : FP → FP → FP
  | nan, _ => nan
  | _, nan => nan
  | fin a, fin b => fin (a * b)
  | fin a, inf => if a = 0 then nan else if 0 < a then inf else ninf
  | fin a, ninf => if a = 0 then nan else if 0 < a then ninf else inf
  | inf, fin b => if b = 0 then nan else if 0 < b then inf else ninf
  | ninf, fin b => if b = 0 then nan else if 0 < b then ninf else inf
  | inf, inf => inf
  | ninf, ninf => inf
  | inf, ninf => ninf
  | ninf, inf => ninf

/-- IEEE-style division on `FP` values; `0 / 0 = nan`,
`x / 0 = ±∞` for finite nonzero `x` (there is no signed zero here). -/
def div : FP → FP → FP
  | nan, _ => nan
  | _, nan => nan
  | fin a, fin b =>
      if b = 0 then (if a = 0 then nan else if 0 < a then inf else ninf)
      else fin (a / b)
  | fin _, inf => fin 0
  | fin _, ninf => fin 0
  | inf, fin b => if b < 0 then ninf else inf
  | ninf, fin b => if b < 0 then inf else ninf
  | inf, inf => nan
  | inf, ninf => nan
  | ninf, inf => nan
  | ninf, ninf => nan

end FP

/-- Division of two rationals with numpy float semantics for a zero
denominator: `0/0` is `nan` and `x/0` is a signed infinity.  Used for the
acceleration ratio, whose operands are plain (finite) numpy floats. -/
def fdivQ (a b : ℚ) : FP :=
  if b = 0 then (if a = 0 then FP.nan else if 0 < a then FP.inf else FP.ninf)
  else FP.fin (a / b)

/-- Rounding of a rational to an integer with numpy round-half-to-even
semantics (`np.round`). -/
def nround (q : ℚ) : ℤ :=
  if q - ⌊q⌋ < 1/2 then ⌊q⌋
  else if 1/2 < q - ⌊q⌋ then ⌊q⌋ + 1
  else if 2 ∣ ⌊q⌋ then ⌊q⌋ else ⌊q⌋ + 1

/-- Rounding on `FP` values: `np.round` applied elementwise leaves
non-finite values unchanged. -/
def fpRound : FP → FP
  | FP.fin q => FP.fin (nround q)
  | v => v

/-- Largest double-precision float, the value `np.nan_to_num` substitutes
for a positive infinity. -/
def maxFloat : ℚ := 17976931348623157 * 10 ^ 292

/-- Model of `np.nan_to_num`: `nan` becomes `0`, infinities become the
extreme finite floats, finite values pass through. -/
def nanToNum : FP → ℚ
  | FP.nan => 0
  | FP.inf => maxFloat
  | FP.ninf => -maxFloat
  | FP.fin q => q

/-- Truncation toward zero, modelling `astype(int)` on a finite float
(the actual values fed to it here are already integral rounds; int64
overflow on `maxFloat` is not modelled beyond truncation). -/
def qtrunc (q : ℚ) : ℤ :=
  if 0 ≤ q then ⌊q⌋ else -⌊-q⌋

/-- Arithmetic mean of a list of rationals (`np.mean`); the mean of the
empty list is `0` here (numpy returns `nan`, a case never reached by the
theorems below, where the empty-sum identities make the outcome agree). -/
def qmean (l : List ℚ) : ℚ := l.sum / l.length

/-- Fancy indexing `xs[indexes]` of a numpy array by an index array
(out-of-range reads, which never occur at the call sites, give `0`). -/
def npIndex (xs : List ℚ) (idxs : List ℕ) : List ℚ :=
  idxs.map (fun i => xs.getD i 0)

/-- Indexing `xs[i]` of a numpy array by a (possibly negative) integer
index, with the numpy wrap-around convention for negatives. -/
def npGet (xs : List ℚ) (i : ℤ) : ℚ :=
  if i < 0 then xs.getD (xs.length - (-i).toNat) 0 else xs.getD i.toNat 0

/-- Ascending sort of a list of rationals (`ndarray.sort`). -/
def npSort (xs : List ℚ) : List ℚ := xs.mergeSort (fun a b => a ≤ b)

/-- Source function `jackknife_indexes(data)`: with
`base = np.arange(0, len(data))`, returns `np.delete(base, i)` (the
positional deletion of entry `i`) for each `i` in `base`. -/
def jackknife_indexes (data : List ℚ) : List (List ℕ) :=
  let base := List.range data.length
  base.map (fun i => base.eraseIdx i)

/-- Jackknife statistic replicates computed inside `bca`: for each index
set, the statistic applied to the corresponding subset of every array in
the `data` tuple (source line
`jstat=[statfunction(*(x[indexes] for x in data)) for indexes in jackindexes]`,
with `jackindexes=jackknife_indexes(data[0])`). -/
def jstatOf (statfunction : List (List ℚ) → ℚ) (data : List (List ℚ)) :
    List ℚ :=
  (jackknife_indexes (data.headD [])).map
    (fun indexes => statfunction (data.map (fun x => npIndex x indexes)))

/-- Acceleration constant of `bca`:
`a = sum((jmean-jstat)**3) / (6.0*sum((jmean-jstat)**2)**1.5)`, with the
floating-point power `x ** 1.5` supplied as the external routine `rp`
and the `0/0` degeneracy giving `nan`. -/
def accel (rp : ℚ → ℚ) (statfunction : List (List ℚ) → ℚ)
    (data : List (List ℚ)) : FP :=
  let jstat := jstatOf statfunction data
  let jmean := qmean jstat
  fdivQ ((jstat.map (fun j => (jmean - j) ^ 3)).sum)
    (6 * rp ((jstat.map (fun j => (jmean - j) ^ 2)).sum))

/-- Source function `bca(data, alphas, statarray, statfunction, ostat, reps)`.
Returns the integer index pair (after `np.round` and `np.nan_to_num`)
and whether the undefined-acceleration warning was emitted
(`np.any(np.isnan(a))`).  `ppf` and `cdf` are the external
`scipy.stats.norm.ppf` / `norm.cdf`. -/
def bca (ppf : ℚ → FP) (cdf : FP → FP) (rp : ℚ → ℚ)
    (statfunction : List (List ℚ) → ℚ) (data : List (List ℚ))
    (alphas : List ℚ) (statarray : List ℚ) (ostat : ℚ) (reps : ℕ) :
    List ℤ × Bool :=
  let z0 := ppf ((statarray.countP (fun v => decide (v < ostat)) : ℚ) / reps)
  let a := accel rp statfunction data
  let warn := decide (a = FP.nan)
  let zs := alphas.map (fun al => FP.add z0 (ppf al))
  let avals := zs.map
    (fun z => cdf (FP.add z0 (FP.div z (FP.sub (FP.fin 1) (FP.mul a z)))))
  let nvals := avals.map
    (fun v => qtrunc (nanToNum (fpRound (FP.mul (FP.fin ((reps : ℚ) - 1)) v))))
  (nvals, warn)

/-- The p-value slot of the result object: a float or the string
sentinel `NIL`. -/
inductive PV where
  | val : ℚ → PV
  | NIL : PV
deriving DecidableEq, Repr

/-- The three `ValueError` exits of `bootstrap.__init__`, tagged by their
messages. -/
inductive BErr where
  | invalidParameter : BErr
  | missingArgument : BErr
  | lengthMismatch : BErr
deriving DecidableEq, Repr

/-- The advisory warnings the computation can emit. -/
inductive Warn where
  | extremalSample : Warn
  | topTen : Warn
  | accelUndefined : Warn
deriving DecidableEq, Repr

/-- Percentile index computation appearing twice in the source:
`pct_low_high=np.round((reps-1)*alphas)` then
`np.nan_to_num(...).astype(int)`, for one alpha value (which is a finite
float here, so the round input is finite). -/
def pctIndex (reps : ℕ) (al : ℚ) : ℤ :=
  qtrunc (nanToNum (fpRound (FP.fin (((reps : ℚ) - 1) * al))))

/-- Intermediate state of one mode branch of `bootstrap.__init__`, just
before the `bca` call at line 199. -/
structure CoreOut where
  tdata : List (List ℚ)
  summ_stat : ℚ
  statarray : List ℚ
  pct_low_high : List ℤ
  ttest_single : PV
  ttest_2_ind : PV
  ttest_2_paired : PV
  wilcoxonresult : PV
  mannwhitneyresult : PV
  diff : Bool
  pairedOut : Bool
deriving DecidableEq, Repr

/-- Branch of `bootstrap.__init__` for `(x2 is None) or (paired is True)`
(source lines 139-170): the target sequence is `x1` (single) or the
elementwise difference `x2-x1` (paired); one resampler call builds the
replicate distribution, which is sorted in place. -/
def singlePairedBranch (boot : List ℚ → List ℚ) (tt1 : List ℚ → ℚ)
    (ttrel wilc : List ℚ → List ℚ → ℚ)
    (statfunction : List (List ℚ) → ℚ) (x1 : List ℚ)
    (x2 : Option (List ℚ)) (alphas : List ℚ) (reps : ℕ) : CoreOut :=
  match x2 with
  | none =>
      { tdata := [x1]
        summ_stat := statfunction [x1]
        statarray := npSort (boot x1)
        pct_low_high := alphas.map (pctIndex reps)
        ttest_single := PV.val (tt1 x1)
        ttest_2_ind := PV.NIL
        ttest_2_paired := PV.NIL
        wilcoxonresult := PV.NIL
        mannwhitneyresult := PV.NIL
        diff := false
        pairedOut := false }
  | some y =>
      let tx := List.zipWith (fun a b => a - b) y x1
      { tdata := [tx]
        summ_stat := statfunction [tx]
        statarray := npSort (boot tx)
        pct_low_high := alphas.map (pctIndex reps)
        ttest_single := PV.NIL
        ttest_2_ind := PV.NIL
        ttest_2_paired := PV.val (ttrel x1 y)
        wilcoxonresult := PV.val (wilc x1 y)
        mannwhitneyresult := PV.NIL
        diff := true
        pairedOut := true }

/-- Branch of `bootstrap.__init__` for `x2 is not None and paired is False`
(source lines 173-196): two replicate distributions are built, their
elementwise difference is the (unsorted) `tdata` handed to `bca`, a
sorted copy is the replicate distribution, and the observed statistic is
computed on the raw samples. -/
def independentBranch (boot : List ℚ → List ℚ)
    (ttind mwu : List ℚ → List ℚ → ℚ)
    (statfunction : List (List ℚ) → ℚ) (x1 y : List ℚ)
    (alphas : List ℚ) (reps : ℕ) : CoreOut :=
  let ref_statarray := boot x1
  let exp_statarray := boot y
  let tdiff := List.zipWith (fun a b => a - b) exp_statarray ref_statarray
  { tdata := [tdiff]
    summ_stat := statfunction [y] - statfunction [x1]
    statarray := npSort tdiff
    pct_low_high := alphas.map (pctIndex reps)
    ttest_single := PV.NIL
    ttest_2_ind := PV.val (ttind x1 y)
    ttest_2_paired := PV.NIL
    wilcoxonresult := PV.NIL
    mannwhitneyresult := PV.val (mwu x1 y)
    diff := true
    pairedOut := false }

/-- Stability-warning loop of `bootstrap.__init__` (source lines 202-206):
for each index pair, an extremal-sample warning if any index is `0` or
`reps-1`, else a top-10 warning if any index is below `10` or at least
`reps-10`. -/
def stabilityWarns (reps : ℕ) : List (List ℤ) → List Warn
  | [] => []
  | ind :: rest =>
      if ind.any (fun k => decide (k = 0) || decide (k = (reps : ℤ) - 1)) then
        Warn.extremalSample :: stabilityWarns reps rest
      else if ind.any
          (fun k => decide (k < 10) || decide ((reps : ℤ) - 10 ≤ k)) then
        Warn.topTen :: stabilityWarns reps rest
      else stabilityWarns reps rest

/-- The assembled result object (the attribute block of
`bootstrap.__init__`, lines 208-229), plus the list of warnings emitted
along the way. -/
structure Result where
  summary : ℚ
  is_paired : Bool
  is_difference : Bool
  n_reps : ℕ
  ci : ℚ
  stat_array : List ℚ
  pct_ci_low : ℚ
  pct_ci_high : ℚ
  pct_low_high_indices : List ℤ
  bca_ci_low : ℚ
  bca_ci_high : ℚ
  bca_low_high_indices : List ℤ
  pvalue_1samp_ttest : PV
  pvalue_2samp_ind_ttest : PV
  pvalue_2samp_paired_ttest : PV
  pvalue_wilcoxon : PV
  pvalue_mannWhitney : PV
  warns : List Warn
deriving DecidableEq, Repr

/-- Shared tail of `bootstrap.__init__` (lines 199-229): the `bca` call
on the branch state, the warning loop, and result assembly. -/
def assemble (ppf : ℚ → FP) (cdf : FP → FP) (rp : ℚ → ℚ)
    (statfunction : List (List ℚ) → ℚ) (co : CoreOut) (alphas : List ℚ)
    (alpha_level : ℚ) (reps : ℕ) : Result :=
  let b := bca ppf cdf rp statfunction co.tdata alphas co.statarray
    co.summ_stat reps
  let warns := (if b.2 then [Warn.accelUndefined] else []) ++
    stabilityWarns reps [co.pct_low_high, b.1]
  { summary := co.summ_stat
    is_paired := co.pairedOut
    is_difference := co.diff
    n_reps := reps
    ci := (1 - alpha_level) * 100
    stat_array := co.statarray
    pct_ci_low := npGet co.statarray (co.pct_low_high.getD 0 0)
    pct_ci_high := npGet co.statarray (co.pct_low_high.getD 1 0)
    pct_low_high_indices := co.pct_low_high
    bca_ci_low := npGet co.statarray (b.1.getD 0 0)
    bca_ci_high := npGet co.statarray (b.1.getD 1 0)
    bca_low_high_indices := b.1
    pvalue_1samp_ttest := co.ttest_single
    pvalue_2samp_ind_ttest := co.ttest_2_ind
    pvalue_2samp_paired_ttest := co.ttest_2_paired
    pvalue_wilcoxon := co.wilcoxonresult
    pvalue_mannWhitney := co.mannwhitneyresult
    warns := warns }

/-- Source entry point `bootstrap.__init__`: validation (lines 126-137),
mode dispatch (lines 139-196), then the shared tail.  The external
collaborators are parameters: `ppf`/`cdf` the normal quantile and CDF,
`rp` the float power `x ** 1.5`, `boot` the seaborn resampling primitive
(one realisation of it, with `statfunction`, `reps` and `smoothboot`
already applied), and `tt1`, `ttind`, `ttrel`, `wilc`, `mwu` the five
hypothesis-test services returning p-values. -/
def bootstrap (ppf : ℚ → FP) (cdf : FP → FP) (rp : ℚ → ℚ)
    (boot : List ℚ → List ℚ) (tt1 : List ℚ → ℚ)
    (ttind ttrel wilc mwu : List ℚ → List ℚ → ℚ)
    (statfunction : List (List ℚ) → ℚ) (x1 : List ℚ)
    (x2 : Option (List ℚ)) (paired : Bool) (alpha_level : ℚ)
    (reps : ℕ) : Except BErr Result :=
  if 1 < alpha_level ∨ alpha_level < 0 then Except.error BErr.invalidParameter
  else
    let alphas := [alpha_level / 2, 1 - alpha_level / 2]
    match paired, x2 with
    | true, none => Except.error BErr.missingArgument
    | true, some y =>
        if x1.length ≠ y.length then Except.error BErr.lengthMismatch
        else Except.ok (assemble ppf cdf rp statfunction
          (singlePairedBranch boot tt1 ttrel wilc statfunction x1 (some y)
            alphas reps) alphas alpha_level reps)
    | false, none =>
        Except.ok (assemble ppf cdf rp statfunction
          (singlePairedBranch boot tt1 ttrel wilc statfunction x1 none
            alphas reps) alphas alpha_level reps)
    | false, some y =>
        Except.ok (assemble ppf cdf rp statfunction
          (independentBranch boot ttind mwu statfunction x1 y alphas reps)
          alphas alpha_level reps)

/-- Decides whether a `bootstrap` invocation completed without raising. -/
def exceptOk : Except BErr Result → Bool
  | Except.ok _ => true
  | Except.error _ => false

/-- Index written per the spec wording of the BCa algorithm: with bias
constant `z0` and acceleration `a`, for an alpha value the index is
`round((reps-1) * Φ(z0 + (z0+z_α)/(1 - a*(z0+z_α))))` with `z_α = Φ⁻¹(α)`,
followed by the non-finite sanitization. -/
def claimedBcaIndex (ppf : ℚ → FP) (cdf : FP → FP) (z0 a : FP) (reps : ℕ)
    (al : ℚ) : ℤ :=
  let zal := ppf al
  qtrunc (nanToNum (fpRound (FP.mul (FP.fin ((reps : ℚ) - 1))
    (cdf (FP.add z0 (FP.div (FP.add z0 zal)
      (FP.sub (FP.fin 1) (FP.mul a (FP.add z0 zal)))))))))

theorem filter_ne_singleton (n i : ℕ) :
    (List.filter (fun j => j ≠ i) [n]) = if n = i then [] else [n] := by
  by_cases h : n = i <;> simp [h]

theorem filter_ne_range_of_le (n i : ℕ) (h : n ≤ i) :
    (List.range n).filter (fun j => j ≠ i) = List.range n := by
  apply List.filter_eq_self.mpr
  intro a ha
  simp only [decide_eq_true_eq]
  have := List.mem_range.mp ha
  omega

theorem eraseIdx_range (n i : ℕ) :
    (List.range n).eraseIdx i = (List.range n).filter (fun j => j ≠ i) := by
  induction n with
  | zero => simp
  | succ n ih =>
    rw [List.range_succ, List.filter_append, filter_ne_singleton]
    by_cases h : i < n
    · rw [List.eraseIdx_append_of_lt_length (by simpa using h), ih,
        if_neg (by omega)]
    · by_cases h2 : i = n
      · rw [List.eraseIdx_append_of_length_le (by simp; omega),
          if_pos h2.symm, filter_ne_range_of_le n i (by omega),
          show i - (List.range n).length = 0 by simp; omega]
        simp
      · have h5 : List.eraseIdx [n] (i - (List.range n).length) = [n] :=
          List.eraseIdx_of_length_le (by simp; omega)
        rw [List.eraseIdx_append_of_length_le (by simp; omega),
          if_neg (by omega), filter_ne_range_of_le n i (by omega), h5]

/-- C10: for every sample of length n, `jackknife_indexes` yields exactly
n index sets; the i-th set is the sequence `0..n-1` with `i` removed, so
it has length `n-1` and a number `j` belongs to it exactly when `j < n`
and `j ≠ i`, i.e. each set excludes exactly one distinct position. -/
theorem claim_C10 (data : List ℚ) :
    (jackknife_indexes data).length = data.length ∧
    (∀ i, i < data.length →
      (jackknife_indexes data).getD i [] =
        (List.range data.length).eraseIdx i ∧
      ((jackknife_indexes data).getD i []).length = data.length - 1 ∧
      (∀ j, j ∈ (jackknife_indexes data).getD i [] ↔
        (j < data.length ∧ j ≠ i))) := by
  constructor
  · simp [jackknife_indexes]
  · intro i hi
    have hget : (jackknife_indexes data).getD i [] =
        (List.range data.length).eraseIdx i := by
      simp only [jackknife_indexes, List.getD_eq_getElem?_getD,
        List.getElem?_map, List.getElem?_range hi, Option.map_some]
      rfl
    refine ⟨hget, ?_, ?_⟩
    · rw [hget, List.length_eraseIdx_of_lt (by simpa using hi)]
      simp
    · intro j
      rw [hget, eraseIdx_range, List.mem_filter, List.mem_range]
      simp

/-- C10 witness: on a 4-element input there are exactly 4 index sets,
each of length 3, each excluding one distinct position. -/
theorem claim_C10_witness :
    (jackknife_indexes [1, 2, 3, 4]).length = 4 ∧
    (jackknife_indexes [1, 2, 3, 4]).getD 2 [] =
      (List.range 4).eraseIdx 2 ∧
    ((jackknife_indexes [1, 2, 3, 4]).getD 2 []).length = 3 ∧
    (∀ j, j ∈ (jackknife_indexes [1, 2, 3, 4]).getD 2 [] ↔
      (j < 4 ∧ j ≠ 2)) := by
  have h := claim_C10 ([1, 2, 3, 4] : List ℚ)
  refine ⟨h.1, ?_⟩
  have h2 := h.2 2 (by decide)
  exact ⟨h2.1, h2.2.1, h2.2.2⟩

/-- Default summary statistic of the source (`statfunction=np.mean`,
lines 122-123), applied to the single positional argument. -/
def npMeanStat : List (List ℚ) → ℚ := fun args => qmean (args.headD [])

/-- C1 counterexample: in independent two-sample mode with
`x1 = [1,2]`, `x2 = [3,4]` and a resampler realisation adding one to
each entry, the tuple passed to the BCa solver is the one-element tuple
holding the derived replicate difference `[2,2]`, not the two original
raw samples. -/
theorem claim_C1_counterexample :
    (independentBranch (fun l => l.map (fun v => v + 1)) (fun _ _ => 0)
      (fun _ _ => 0) npMeanStat [1, 2] [3, 4] [1/40, 39/40] 2).tdata
      = [[2, 2]] ∧
    (independentBranch (fun l => l.map (fun v => v + 1)) (fun _ _ => 0)
      (fun _ _ => 0) npMeanStat [1, 2] [3, 4] [1/40, 39/40] 2).tdata
      ≠ [[1, 2], [3, 4]] := by
  constructor
  · with_unfolding_all decide
  · with_unfolding_all decide

/-- C1 amended: in independent two-sample mode the BCa solver is invoked
with the one-element tuple holding the elementwise difference of the two
bootstrap replicate distributions (x2-resamples minus x1-resamples), and
its jackknife replicates are leave-one-out recomputations of the
one-argument statistic over that derived replicate distribution — not
over the two original raw samples. -/
theorem claim_C1_amended (boot : List ℚ → List ℚ)
    (ttind mwu : List ℚ → List ℚ → ℚ)
    (statfunction : List (List ℚ) → ℚ) (x1 y alphas : List ℚ) (reps : ℕ) :
    (independentBranch boot ttind mwu statfunction x1 y alphas reps).tdata
      = [List.zipWith (fun a b => a - b) (boot y) (boot x1)] ∧
    jstatOf statfunction
        (independentBranch boot ttind mwu statfunction x1 y alphas
          reps).tdata =
      (jackknife_indexes (List.zipWith (fun a b => a - b) (boot y)
          (boot x1))).map
        (fun indexes => statfunction
          [npIndex (List.zipWith (fun a b => a - b) (boot y) (boot x1))
            indexes]) := by
  constructor
  · rfl
  · rfl

/-- C2: on every invocation, the pair of indices returned by `bca` is
exactly, for each alpha value, the claimed
`round((reps-1) * Φ(z0 + (z0+z_α)/(1 - a*(z0+z_α))))` (then sanitized to
an integer), where `z0 = Φ⁻¹(count(replicate < observed)/reps)`,
`z_α = Φ⁻¹(α)` and `a` is the jackknife acceleration constant. -/
theorem claim_C2 (ppf : ℚ → FP) (cdf : FP → FP) (rp : ℚ → ℚ)
    (statfunction : List (List ℚ) → ℚ) (data : List (List ℚ))
    (alphas : List ℚ) (statarray : List ℚ) (ostat : ℚ) (reps : ℕ) :
    (bca ppf cdf rp statfunction data alphas statarray ostat reps).1 =
      alphas.map (claimedBcaIndex ppf cdf
        (ppf ((statarray.countP (fun v => decide (v < ostat)) : ℚ) / reps))
        (accel rp statfunction data) reps) := by
  simp only [bca, claimedBcaIndex, List.map_map]
  rfl

theorem FP.nan_add (a : FP) : FP.add FP.nan a = FP.nan := by
  cases a <;> rfl

theorem FP.add_nan (a : FP) : FP.add a FP.nan = FP.nan := by
  cases a <;> rfl

theorem FP.nan_mul (a : FP) : FP.mul FP.nan a = FP.nan := by
  cases a <;> rfl

theorem FP.mul_nan (a : FP) : FP.mul a FP.nan = FP.nan := by
  cases a <;> rfl

theorem FP.div_nan (a : FP) : FP.div a FP.nan = FP.nan := by
  cases a <;> rfl

theorem FP.sub_nan (a : FP) : FP.sub a FP.nan = FP.nan := by
  cases a <;> rfl

theorem accel_nan_of_all_eq (rp : ℚ → ℚ)
    (statfunction : List (List ℚ) → ℚ) (data : List (List ℚ))
    (hall : ∀ x ∈ jstatOf statfunction data,
      x = (jstatOf statfunction data).headD 0)
    (hrp : rp 0 = 0) :
    accel rp statfunction data = FP.nan := by
  set l := jstatOf statfunction data with hl
  have hzero : ∀ k : ℕ, (l.map (fun j => (qmean l - j) ^ (k + 2))).sum = 0 := by
    intro k
    apply List.sum_eq_zero
    intro x hx
    rcases List.mem_map.mp hx with ⟨j, hj, rfl⟩
    rcases List.eq_nil_or_concat l with h0 | ⟨l2, b, h0⟩
    · rw [h0] at hj
      simp at hj
    · have hne : l ≠ [] := by
        rw [h0]
        simp
      have hc : qmean l = l.headD 0 := by
        have hsum := List.sum_eq_card_nsmul l (l.headD 0) hall
        have hlen : (l.length : ℚ) ≠ 0 := by
          exact_mod_cast (List.length_pos.mpr hne).ne'
        rw [qmean, hsum, nsmul_eq_mul, mul_div_cancel_left₀ _ hlen]
      rw [hc, hall j hj, sub_self]
      exact zero_pow (by omega)
  have h3 := hzero 1
  have h2 := hzero 0
  norm_num at h3 h2
  rw [accel]
  simp only [← hl, h3, h2, hrp, mul_zero]
  simp [fdivQ]

/-- C4: when all jackknife replicate values are equal, the acceleration
constant is `nan` (the `0/0` degeneracy); `bca` then emits the
undefined-acceleration warning, and both returned BCa indices are the
sanitized fallback `0`, a zero-width interval with no `nan` in it.  The
hypotheses record the external contracts `0 ** 1.5 = 0` and
`Φ(nan) = nan`. -/
theorem claim_C4 (ppf : ℚ → FP) (cdf : FP → FP) (rp : ℚ → ℚ)
    (statfunction : List (List ℚ) → ℚ) (data : List (List ℚ))
    (alphas statarray : List ℚ) (ostat : ℚ) (reps : ℕ)
    (hall : ∀ x ∈ jstatOf statfunction data,
      x = (jstatOf statfunction data).headD 0)
    (hrp : rp 0 = 0) (hcdf : cdf FP.nan = FP.nan) :
    (bca ppf cdf rp statfunction data alphas statarray ostat reps).2
      = true ∧
    (bca ppf cdf rp statfunction data alphas statarray ostat reps).1
      = alphas.map (fun _ => 0) := by
  have ha := accel_nan_of_all_eq rp statfunction data hall hrp
  constructor
  · simp [bca, ha]
  · simp only [bca, ha, List.map_map]
    apply List.map_congr_left
    intro al _
    simp only [Function.comp]
    rw [FP.nan_mul, FP.sub_nan, FP.div_nan, FP.add_nan, hcdf, FP.mul_nan]
    rfl

/-- C4 witness: a concrete degenerate instance (constant statistic, so
all jackknife values are equal) where the warning fires and the index
pair is `[0, 0]`. -/
theorem claim_C4_witness :
    (∀ x ∈ jstatOf (fun _ => (5 : ℚ)) [[1, 2, 3]],
      x = (jstatOf (fun _ => (5 : ℚ)) [[1, 2, 3]]).headD 0) ∧
    (bca (fun _ => FP.fin 0) (fun _ => FP.nan) (fun _ => 0)
      (fun _ => (5 : ℚ)) [[1, 2, 3]] [1/40, 39/40] [1, 2, 3] 2 20).2
      = true ∧
    (bca (fun _ => FP.fin 0) (fun _ => FP.nan) (fun _ => 0)
      (fun _ => (5 : ℚ)) [[1, 2, 3]] [1/40, 39/40] [1, 2, 3] 2 20).1
      = [0, 0] := by
  refine ⟨by with_unfolding_all decide, ?_⟩
  have h := claim_C4 (fun _ => FP.fin 0) (fun _ => FP.nan) (fun _ => 0)
    (fun _ => (5 : ℚ)) [[1, 2, 3]] [1/40, 39/40] [1, 2, 3] 2 20
    (by with_unfolding_all decide) rfl rfl
  exact ⟨h.1, h.2⟩

theorem qtrunc_intCast (k : ℤ) : qtrunc (k : ℚ) = k := by
  unfold qtrunc
  split_ifs with h
  · exact Int.floor_intCast k
  · rw [← Int.cast_neg, Int.floor_intCast]
    exact neg_neg k

theorem nround_nonneg (q : ℚ) (h : 0 ≤ q) : 0 ≤ nround q := by
  have hf : 0 ≤ ⌊q⌋ := Int.floor_nonneg.mpr h
  unfold nround
  split_ifs <;> omega

theorem nround_le_of_le (q : ℚ) (m : ℤ) (h : q ≤ m) : nround q ≤ m := by
  have hf : ⌊q⌋ ≤ m := by
    calc ⌊q⌋ ≤ ⌊(m : ℚ)⌋ := Int.floor_le_floor h
    _ = m := Int.floor_intCast m
  have hfq : (⌊q⌋ : ℚ) ≤ q := Int.floor_le q
  unfold nround
  split_ifs with h1 h2 h3
  · exact hf
  · have hlt : (⌊q⌋ : ℚ) < (m : ℚ) := by linarith
    have : ⌊q⌋ < m := by exact_mod_cast hlt
    omega
  · exact hf
  · have heq : q - ⌊q⌋ = 1/2 := le_antisymm (not_lt.mp h2) (not_lt.mp h1)
    have hlt : (⌊q⌋ : ℚ) < (m : ℚ) := by linarith
    have : ⌊q⌋ < m := by exact_mod_cast hlt
    omega

theorem pctIndex_eq (reps : ℕ) (al : ℚ) :
    pctIndex reps al = nround (((reps : ℚ) - 1) * al) := by
  simp [pctIndex, fpRound, nanToNum, qtrunc_intCast]

theorem pctIndex_bounds (reps : ℕ) (al : ℚ) (h3 : 1 ≤ reps)
    (h0 : 0 ≤ al) (h1 : al ≤ 1) :
    0 ≤ pctIndex reps al ∧ pctIndex reps al ≤ (reps : ℤ) - 1 := by
  rw [pctIndex_eq]
  have hr : (0 : ℚ) ≤ (reps : ℚ) - 1 := by
    have : (1 : ℚ) ≤ (reps : ℚ) := by exact_mod_cast h3
    linarith
  constructor
  · exact nround_nonneg _ (mul_nonneg hr h0)
  · apply nround_le_of_le
    push_cast
    nlinarith

theorem sanitized_index_bounds (reps : ℕ) (h3 : 1 ≤ reps) (v : FP)
    (hv : v = FP.nan ∨ ∃ q, v = FP.fin q ∧ 0 ≤ q ∧ q ≤ 1) :
    0 ≤ qtrunc (nanToNum (fpRound (FP.mul (FP.fin ((reps : ℚ) - 1)) v))) ∧
    qtrunc (nanToNum (fpRound (FP.mul (FP.fin ((reps : ℚ) - 1)) v)))
      ≤ (reps : ℤ) - 1 := by
  have hr : (0 : ℚ) ≤ (reps : ℚ) - 1 := by
    have : (1 : ℚ) ≤ (reps : ℚ) := by exact_mod_cast h3
    linarith
  rcases hv with rfl | ⟨q, rfl, hq0, hq1⟩
  · rw [FP.mul_nan]
    refine ⟨le_refl 0, ?_⟩
    show (0 : ℤ) ≤ (reps : ℤ) - 1
    omega
  · have hm : FP.mul (FP.fin ((reps : ℚ) - 1)) (FP.fin q)
        = FP.fin (((reps : ℚ) - 1) * q) := rfl
    rw [hm]
    simp only [fpRound, nanToNum, qtrunc_intCast]
    constructor
    · exact nround_nonneg _ (mul_nonneg hr hq0)
    · apply nround_le_of_le
      push_cast
      nlinarith

theorem bca_index_bounds (ppf : ℚ → FP) (cdf : FP → FP) (rp : ℚ → ℚ)
    (statfunction : List (List ℚ) → ℚ) (data : List (List ℚ))
    (alphas statarray : List ℚ) (ostat : ℚ) (reps : ℕ) (h3 : 1 ≤ reps)
    (hcdf : ∀ v, cdf v = FP.nan ∨ ∃ q, cdf v = FP.fin q ∧ 0 ≤ q ∧ q ≤ 1) :
    ∀ k ∈ (bca ppf cdf rp statfunction data alphas statarray ostat reps).1,
      0 ≤ k ∧ k ≤ (reps : ℤ) - 1 := by
  intro k hk
  simp only [bca, List.map_map, List.mem_map, Function.comp] at hk
  rcases hk with ⟨al, hal, rfl⟩
  exact sanitized_index_bounds reps h3 _ (hcdf _)

theorem assemble_index_bounds (ppf : ℚ → FP) (cdf : FP → FP) (rp : ℚ → ℚ)
    (statfunction : List (List ℚ) → ℚ) (co : CoreOut)
    (alphas : List ℚ) (alpha_level : ℚ) (reps : ℕ)
    (hpct : co.pct_low_high = alphas.map (pctIndex reps))
    (hal : ∀ al ∈ alphas, 0 ≤ al ∧ al ≤ 1) (h3 : 1 ≤ reps)
    (hcdf : ∀ v, cdf v = FP.nan ∨ ∃ q, cdf v = FP.fin q ∧ 0 ≤ q ∧ q ≤ 1) :
    ∀ k ∈ (assemble ppf cdf rp statfunction co alphas alpha_level
          reps).pct_low_high_indices ++
        (assemble ppf cdf rp statfunction co alphas alpha_level
          reps).bca_low_high_indices,
      0 ≤ k ∧ k ≤ (reps : ℤ) - 1 := by
  intro k hk
  rw [List.mem_append] at hk
  rcases hk with hk | hk
  · rw [show (assemble ppf cdf rp statfunction co alphas alpha_level
        reps).pct_low_high_indices = co.pct_low_high from rfl, hpct] at hk
    rcases List.mem_map.mp hk with ⟨al, halm, rfl⟩
    exact pctIndex_bounds reps al h3 (hal al halm).1 (hal al halm).2
  · rw [show (assemble ppf cdf rp statfunction co alphas alpha_level
        reps).bca_low_high_indices = (bca ppf cdf rp statfunction co.tdata
          alphas co.statarray co.summ_stat reps).1 from rfl] at hk
    exact bca_index_bounds ppf cdf rp statfunction co.tdata alphas
      co.statarray co.summ_stat reps h3 hcdf k hk

/-- C3: for every valid invocation (confidence level strictly between 0
and 1, at least one bootstrap repetition) that returns a result, all
four returned order-statistic indices — the percentile pair and the BCa
pair — are integers in `[0, reps-1]`, so reading the interval bounds
from the sorted replicate distribution of length `reps` is in bounds;
moreover whenever the adjusted-percentile values are non-finite, the
sanitization returns index `0`.  The `hcdf` hypothesis is the external
contract that `Φ` yields either `nan` or a value in `[0,1]`. -/
theorem claim_C3 (ppf : ℚ → FP) (cdf : FP → FP) (rp : ℚ → ℚ)
    (boot : List ℚ → List ℚ) (tt1 : List ℚ → ℚ)
    (ttind ttrel wilc mwu : List ℚ → List ℚ → ℚ)
    (f : List (List ℚ) → ℚ) (x1 : List ℚ) (x2 : Option (List ℚ))
    (paired : Bool) (alpha_level : ℚ) (reps : ℕ)
    (h1 : 0 < alpha_level) (h2 : alpha_level < 1) (h3 : 1 ≤ reps)
    (hcdf : ∀ v, cdf v = FP.nan ∨ ∃ q, cdf v = FP.fin q ∧ 0 ≤ q ∧ q ≤ 1) :
    (∀ r, bootstrap ppf cdf rp boot tt1 ttind ttrel wilc mwu f x1 x2
        paired alpha_level reps = Except.ok r →
      ∀ k ∈ r.pct_low_high_indices ++ r.bca_low_high_indices,
        0 ≤ k ∧ k ≤ (reps : ℤ) - 1) ∧
    (∀ (cdfn : FP → FP), (∀ v, cdfn v = FP.nan) →
      ∀ (data : List (List ℚ)) (alphas statarray : List ℚ) (ostat : ℚ),
        (bca ppf cdfn rp f data alphas statarray ostat reps).1 =
          alphas.map (fun _ => 0)) := by
  constructor
  · intro r hr
    have halpha : ¬(1 < alpha_level ∨ alpha_level < 0) := by
      push_neg
      constructor <;> linarith
    have hal : ∀ al ∈ [alpha_level / 2, 1 - alpha_level / 2],
        0 ≤ al ∧ al ≤ 1 := by
      intro al halm
      rcases List.mem_cons.mp halm with rfl | h
      · constructor <;> linarith
      · rcases List.mem_cons.mp h with rfl | h
        · constructor <;> linarith
        · simp at h
    simp only [bootstrap, if_neg halpha] at hr
    cases paired <;> rcases x2 with _ | y
    · simp only [Except.ok.injEq] at hr
      subst hr
      exact assemble_index_bounds ppf cdf rp f _ _ alpha_level reps rfl hal
        h3 hcdf
    · simp only [Except.ok.injEq] at hr
      subst hr
      exact assemble_index_bounds ppf cdf rp f _ _ alpha_level reps rfl hal
        h3 hcdf
    · exact absurd hr (by simp)
    · have hr2 : (if x1.length ≠ y.length then
          Except.error BErr.lengthMismatch
        else Except.ok (assemble ppf cdf rp f
          (singlePairedBranch boot tt1 ttrel wilc f x1 (some y)
            [alpha_level / 2, 1 - alpha_level / 2] reps)
          [alpha_level / 2, 1 - alpha_level / 2] alpha_level reps))
          = Except.ok r := hr
      by_cases hly : x1.length ≠ y.length
      · rw [if_pos hly] at hr2
        exact absurd hr2 (by simp)
      · rw [if_neg hly] at hr2
        simp only [Except.ok.injEq] at hr2
        subst hr2
        exact assemble_index_bounds ppf cdf rp f _ _ alpha_level reps rfl
          hal h3 hcdf
  · intro cdfn hn data alphas statarray ostat
    simp only [bca, List.map_map]
    apply List.map_congr_left
    intro al _
    simp only [Function.comp]
    rw [hn, FP.mul_nan]
    rfl

/-- C3 witness: a concrete valid single-sample invocation (alpha 1/20,
three repetitions, a CDF stub inside `[0,1]`) on which the index bounds
and the sanitization conclusion hold. -/
theorem claim_C3_witness :
    (0 : ℚ) < 1/20 ∧ (1/20 : ℚ) < 1 ∧ 1 ≤ 3 ∧
    (∀ v : FP, (fun _ : FP => FP.fin (1/2)) v = FP.nan ∨
      ∃ q, (fun _ : FP => FP.fin (1/2)) v = FP.fin q ∧ 0 ≤ q ∧ q ≤ 1) ∧
    ((∀ r, bootstrap (fun _ => FP.fin 0) (fun _ => FP.fin (1/2))
        (fun q => q) (fun _ => [0, 0, 0]) (fun _ => 0) (fun _ _ => 0)
        (fun _ _ => 0) (fun _ _ => 0) (fun _ _ => 0) npMeanStat [1, 2]
        none false (1/20) 3 = Except.ok r →
      ∀ k ∈ r.pct_low_high_indices ++ r.bca_low_high_indices,
        0 ≤ k ∧ k ≤ (3 : ℤ) - 1) ∧
    (∀ (cdfn : FP → FP), (∀ v, cdfn v = FP.nan) →
      ∀ (data : List (List ℚ)) (alphas statarray : List ℚ) (ostat : ℚ),
        (bca (fun _ => FP.fin 0) cdfn (fun q => q) npMeanStat data alphas
          statarray ostat 3).1 = alphas.map (fun _ => 0))) := by
  refine ⟨by norm_num, by norm_num, by norm_num, ?_, ?_⟩
  · intro v
    exact Or.inr ⟨1/2, rfl, by norm_num, by norm_num⟩
  · exact claim_C3 (fun _ => FP.fin 0) (fun _ => FP.fin (1/2)) (fun q => q)
      (fun _ => [0, 0, 0]) (fun _ => 0) (fun _ _ => 0) (fun _ _ => 0)
      (fun _ _ => 0) (fun _ _ => 0) npMeanStat [1, 2] none false (1/20) 3
      (by norm_num) (by norm_num) (by norm_num)
      (fun v => Or.inr ⟨1/2, rfl, by norm_num, by norm_num⟩)

/-- C5 counterexample: with unequal-length samples in independent
(non-paired) two-sample mode the computation completes and returns a
result instead of rejecting with a length-mismatch error; the length
check is performed only in paired mode. -/
theorem claim_C5_counterexample :
    exceptOk (bootstrap (fun _ => FP.fin 0) (fun _ => FP.fin 0) (fun q => q)
      (fun _ => [0, 0]) (fun _ => 0) (fun _ _ => 0) (fun _ _ => 0)
      (fun _ _ => 0) (fun _ _ => 0) npMeanStat [1, 2] (some [1, 2, 3])
      false (1/20) 2) = true := by
  with_unfolding_all decide

/-- C5 amended: only paired mode requires equal sample lengths — with
`paired=True` and unequal lengths (and a confidence level passing the
alpha check) the call fails with the length-mismatch error, and this
happens for every resampler, i.e. before any resampling; in independent
(non-paired) mode the same unequal-length samples are accepted. -/
theorem claim_C5_amended (ppf : ℚ → FP) (cdf : FP → FP) (rp : ℚ → ℚ)
    (boot : List ℚ → List ℚ) (tt1 : List ℚ → ℚ)
    (ttind ttrel wilc mwu : List ℚ → List ℚ → ℚ)
    (f : List (List ℚ) → ℚ) (x1 y : List ℚ) (alpha_level : ℚ) (reps : ℕ)
    (ha : ¬(1 < alpha_level ∨ alpha_level < 0))
    (hlen : x1.length ≠ y.length) :
    bootstrap ppf cdf rp boot tt1 ttind ttrel wilc mwu f x1 (some y) true
      alpha_level reps = Except.error BErr.lengthMismatch ∧
    exceptOk (bootstrap ppf cdf rp boot tt1 ttind ttrel wilc mwu f x1
      (some y) false alpha_level reps) = true := by
  constructor
  · unfold bootstrap
    rw [if_neg ha]
    show (if x1.length ≠ y.length then Except.error BErr.lengthMismatch
      else Except.ok (assemble ppf cdf rp f
        (singlePairedBranch boot tt1 ttrel wilc f x1 (some y)
          [alpha_level / 2, 1 - alpha_level / 2] reps)
        [alpha_level / 2, 1 - alpha_level / 2] alpha_level reps))
      = Except.error BErr.lengthMismatch
    rw [if_pos hlen]
  · unfold bootstrap
    rw [if_neg ha]
    rfl

/-- C5 witness: the amended statement at `x1=[1,2]`, `x2=[1,2,3]`,
`alpha=1/20`. -/
theorem claim_C5_witness :
    ¬((1 : ℚ) < 1/20 ∨ (1/20 : ℚ) < 0) ∧
    ([1, 2] : List ℚ).length ≠ ([1, 2, 3] : List ℚ).length ∧
    (bootstrap (fun _ => FP.fin 0) (fun _ => FP.fin 0) (fun q => q)
      (fun _ => [0, 0]) (fun _ => 0) (fun _ _ => 0) (fun _ _ => 0)
      (fun _ _ => 0) (fun _ _ => 0) npMeanStat [1, 2] (some [1, 2, 3])
      true (1/20) 2 = Except.error BErr.lengthMismatch ∧
    exceptOk (bootstrap (fun _ => FP.fin 0) (fun _ => FP.fin 0)
      (fun q => q) (fun _ => [0, 0]) (fun _ => 0) (fun _ _ => 0)
      (fun _ _ => 0) (fun _ _ => 0) (fun _ _ => 0) npMeanStat [1, 2]
      (some [1, 2, 3]) false (1/20) 2) = true) :=
  ⟨by norm_num, by decide,
    claim_C5_amended (fun _ => FP.fin 0) (fun _ => FP.fin 0) (fun q => q)
      (fun _ => [0, 0]) (fun _ => 0) (fun _ _ => 0) (fun _ _ => 0)
      (fun _ _ => 0) (fun _ _ => 0) npMeanStat [1, 2] [1, 2, 3] (1/20) 2
      (by norm_num) (by decide)⟩

/-- C6 counterexample: `alpha_level = 0` lies outside the open interval
(0,1), yet the invocation is accepted and completes: the validation only
rejects levels above 1 or below 0, so the claimed "exactly these cases"
characterization fails at the boundary. -/
theorem claim_C6_counterexample :
    ¬(0 < (0 : ℚ) ∧ (0 : ℚ) < 1) ∧
    exceptOk (bootstrap (fun _ => FP.fin 0) (fun _ => FP.fin 0) (fun q => q)
      (fun _ => [0, 0]) (fun _ => 0) (fun _ _ => 0) (fun _ _ => 0)
      (fun _ _ => 0) (fun _ _ => 0) npMeanStat [1, 2] none false 0 2)
      = true := by
  constructor
  · simp
  · with_unfolding_all decide

/-- C6 amended: the validation raises exactly as follows — the invalid
parameter error iff `alpha_level > 1` or `alpha_level < 0` (so the
closed interval `[0,1]` is accepted, boundary values included); else the
missing-argument error iff `paired` with `x2` absent; else the
length-mismatch error iff `paired` with unequal lengths; every other
argument combination completes and returns a result, independent of the
resampler. -/
theorem claim_C6_amended (ppf : ℚ → FP) (cdf : FP → FP) (rp : ℚ → ℚ)
    (boot : List ℚ → List ℚ) (tt1 : List ℚ → ℚ)
    (ttind ttrel wilc mwu : List ℚ → List ℚ → ℚ)
    (f : List (List ℚ) → ℚ) (x1 : List ℚ) (x2 : Option (List ℚ))
    (paired : Bool) (alpha_level : ℚ) (reps : ℕ) :
    (bootstrap ppf cdf rp boot tt1 ttind ttrel wilc mwu f x1 x2 paired
        alpha_level reps = Except.error BErr.invalidParameter ↔
      (1 < alpha_level ∨ alpha_level < 0)) ∧
    (bootstrap ppf cdf rp boot tt1 ttind ttrel wilc mwu f x1 x2 paired
        alpha_level reps = Except.error BErr.missingArgument ↔
      (¬(1 < alpha_level ∨ alpha_level < 0) ∧ paired = true ∧
        x2 = none)) ∧
    (bootstrap ppf cdf rp boot tt1 ttind ttrel wilc mwu f x1 x2 paired
        alpha_level reps = Except.error BErr.lengthMismatch ↔
      (¬(1 < alpha_level ∨ alpha_level < 0) ∧ paired = true ∧
        ∃ y, x2 = some y ∧ x1.length ≠ y.length)) ∧
    (exceptOk (bootstrap ppf cdf rp boot tt1 ttind ttrel wilc mwu f x1 x2
        paired alpha_level reps) = true ↔
      (¬(1 < alpha_level ∨ alpha_level < 0) ∧
        (paired = true → ∃ y, x2 = some y ∧ x1.length = y.length))) := by
  by_cases ha : 1 < alpha_level ∨ alpha_level < 0
  · simp only [bootstrap, if_pos ha]
    refine ⟨?_, ?_, ?_, ?_⟩ <;> simp [ha, exceptOk]
  · simp only [bootstrap, if_neg ha]
    cases paired <;> rcases x2 with _ | y
    · refine ⟨?_, ?_, ?_, ?_⟩ <;> simp [ha, exceptOk]
    · refine ⟨?_, ?_, ?_, ?_⟩ <;> simp [ha, exceptOk]
    · refine ⟨?_, ?_, ?_, ?_⟩ <;> simp [ha, exceptOk]
    · by_cases hly : x1.length ≠ y.length
      · refine ⟨?_, ?_, ?_, ?_⟩ <;> simp [ha, hly, exceptOk]
      · refine ⟨?_, ?_, ?_, ?_⟩ <;> simp [ha, hly, exceptOk]
        omega

theorem npSort_sorted (xs : List ℚ) :
    List.Pairwise (fun a b => a ≤ b) (npSort xs) := by
  have h : (List.mergeSort xs (fun a b : ℚ => decide (a ≤ b))).Pairwise
      (fun a b => decide (a ≤ b) = true) :=
    List.sorted_mergeSort
      (fun a b c hab hbc => by
        simp only [decide_eq_true_eq] at *
        exact le_trans hab hbc)
      (fun a b => by
        simp only [Bool.or_eq_true, decide_eq_true_eq]
        exact le_total a b)
      xs
  exact h.imp (fun hd => by simpa using hd)

/-- C7: in independent two-sample mode the replicate distribution is the
ascending sort of the elementwise difference of the two independently
generated bootstrap distributions (x2-resamples minus x1-resamples, with
`reps` values each), and the reported summary statistic is
`statfunction(x2) - statfunction(x1)` computed on the raw samples; in
particular with the default mean statistic, `x1=[1,2,3]` and
`x2=[4,5,6]` yield summary exactly `3`. -/
theorem claim_C7 (ppf : ℚ → FP) (cdf : FP → FP) (rp : ℚ → ℚ)
    (boot : List ℚ → List ℚ) (tt1 : List ℚ → ℚ)
    (ttind ttrel wilc mwu : List ℚ → List ℚ → ℚ)
    (f : List (List ℚ) → ℚ) (x1 y : List ℚ) (alpha_level : ℚ) (reps : ℕ)
    (ha : ¬(1 < alpha_level ∨ alpha_level < 0))
    (hb1 : (boot x1).length = reps) (hb2 : (boot y).length = reps) :
    ((bootstrap ppf cdf rp boot tt1 ttind ttrel wilc mwu f x1 (some y)
        false alpha_level reps).toOption.map Result.stat_array =
      some (npSort (List.zipWith (fun a b => a - b) (boot y) (boot x1)))) ∧
    ((bootstrap ppf cdf rp boot tt1 ttind ttrel wilc mwu f x1 (some y)
        false alpha_level reps).toOption.map Result.summary =
      some (f [y] - f [x1])) ∧
    (List.zipWith (fun a b => a - b) (boot y) (boot x1)).length = reps ∧
    List.Pairwise (fun a b => a ≤ b)
      (npSort (List.zipWith (fun a b => a - b) (boot y) (boot x1))) ∧
    (npSort (List.zipWith (fun a b => a - b) (boot y) (boot x1))).Perm
      (List.zipWith (fun a b => a - b) (boot y) (boot x1)) ∧
    (bootstrap ppf cdf rp boot tt1 ttind ttrel wilc mwu npMeanStat
        [1, 2, 3] (some [4, 5, 6]) false alpha_level reps).toOption.map
      Result.summary = some 3 := by
  refine ⟨?_, ?_, ?_, ?_, ?_, ?_⟩
  · simp only [bootstrap, if_neg ha]
    rfl
  · simp only [bootstrap, if_neg ha]
    rfl
  · rw [List.length_zipWith, hb1, hb2, min_self]
  · exact npSort_sorted _
  · exact List.mergeSort_perm _ _
  · simp only [bootstrap, if_neg ha]
    show some (npMeanStat [[4, 5, 6]] - npMeanStat [[1, 2, 3]]) = some 3
    norm_num [npMeanStat, qmean]

/-- C7 witness: the statement at a concrete realisation with two
resampled lists of the right length. -/
theorem claim_C7_witness :
    ¬((1 : ℚ) < 1/20 ∨ (1/20 : ℚ) < 0) ∧
    ((fun _ : List ℚ => [(1 : ℚ), 2]) [1, 2]).length = 2 ∧
    ((fun _ : List ℚ => [(1 : ℚ), 2]) [9]).length = 2 ∧
    (((bootstrap (fun _ => FP.fin 0) (fun _ => FP.fin 0) (fun q => q)
        (fun _ => [1, 2]) (fun _ => 0) (fun _ _ => 0) (fun _ _ => 0)
        (fun _ _ => 0) (fun _ _ => 0) npMeanStat [1, 2] (some [9])
        false (1/20) 2).toOption.map Result.stat_array =
      some (npSort (List.zipWith (fun a b => a - b)
        ((fun _ : List ℚ => [(1 : ℚ), 2]) [9])
        ((fun _ : List ℚ => [(1 : ℚ), 2]) [1, 2])))) ∧
    ((bootstrap (fun _ => FP.fin 0) (fun _ => FP.fin 0) (fun q => q)
        (fun _ => [1, 2]) (fun _ => 0) (fun _ _ => 0) (fun _ _ => 0)
        (fun _ _ => 0) (fun _ _ => 0) npMeanStat [1, 2] (some [9])
        false (1/20) 2).toOption.map Result.summary =
      some (npMeanStat [[9]] - npMeanStat [[1, 2]])) ∧
    (List.zipWith (fun a b => a - b)
      ((fun _ : List ℚ => [(1 : ℚ), 2]) [9])
      ((fun _ : List ℚ => [(1 : ℚ), 2]) [1, 2])).length = 2 ∧
    List.Pairwise (fun a b => a ≤ b)
      (npSort (List.zipWith (fun a b => a - b)
        ((fun _ : List ℚ => [(1 : ℚ), 2]) [9])
        ((fun _ : List ℚ => [(1 : ℚ), 2]) [1, 2]))) ∧
    (npSort (List.zipWith (fun a b => a - b)
      ((fun _ : List ℚ => [(1 : ℚ), 2]) [9])
      ((fun _ : List ℚ => [(1 : ℚ), 2]) [1, 2]))).Perm
      (List.zipWith (fun a b => a - b)
        ((fun _ : List ℚ => [(1 : ℚ), 2]) [9])
        ((fun _ : List ℚ => [(1 : ℚ), 2]) [1, 2])) ∧
    (bootstrap (fun _ => FP.fin 0) (fun _ => FP.fin 0) (fun q => q)
        (fun _ => [1, 2]) (fun _ => 0) (fun _ _ => 0) (fun _ _ => 0)
        (fun _ _ => 0) (fun _ _ => 0) npMeanStat
        [1, 2, 3] (some [4, 5, 6]) false (1/20) 2).toOption.map
      Result.summary = some 3) :=
  ⟨by norm_num, rfl, rfl,
    claim_C7 (fun _ => FP.fin 0) (fun _ => FP.fin 0) (fun q => q)
      (fun _ => [1, 2]) (fun _ => 0) (fun _ _ => 0) (fun _ _ => 0)
      (fun _ _ => 0) (fun _ _ => 0) npMeanStat [1, 2] [9] (1/20) 2
      (by norm_num) rfl rfl⟩

/-- C8: the analysis mode fully determines the five p-value slots and
the bootstrapped target sequence — single-sample mode bootstraps `x1`
and computes only the one-sample t-test (the four two-sample slots hold
the not-applicable marker); paired mode bootstraps the elementwise
difference `x2-x1` and computes exactly the paired t-test and Wilcoxon
p-values; independent mode computes exactly the independent t-test and
Mann-Whitney p-values. -/
theorem claim_C8 (ppf : ℚ → FP) (cdf : FP → FP) (rp : ℚ → ℚ)
    (boot : List ℚ → List ℚ) (tt1 : List ℚ → ℚ)
    (ttind ttrel wilc mwu : List ℚ → List ℚ → ℚ)
    (f : List (List ℚ) → ℚ) (x1 y : List ℚ) (alpha_level : ℚ) (reps : ℕ)
    (ha : ¬(1 < alpha_level ∨ alpha_level < 0))
    (hlen : x1.length = y.length) :
    ((bootstrap ppf cdf rp boot tt1 ttind ttrel wilc mwu f x1 none false
        alpha_level reps).toOption.map (fun r =>
          (r.pvalue_1samp_ttest, r.pvalue_2samp_ind_ttest,
           r.pvalue_2samp_paired_ttest, r.pvalue_wilcoxon,
           r.pvalue_mannWhitney)) =
      some (PV.val (tt1 x1), PV.NIL, PV.NIL, PV.NIL, PV.NIL) ∧
     (bootstrap ppf cdf rp boot tt1 ttind ttrel wilc mwu f x1 none false
        alpha_level reps).toOption.map Result.stat_array =
      some (npSort (boot x1))) ∧
    ((bootstrap ppf cdf rp boot tt1 ttind ttrel wilc mwu f x1 (some y)
        true alpha_level reps).toOption.map (fun r =>
          (r.pvalue_1samp_ttest, r.pvalue_2samp_ind_ttest,
           r.pvalue_2samp_paired_ttest, r.pvalue_wilcoxon,
           r.pvalue_mannWhitney)) =
      some (PV.NIL, PV.NIL, PV.val (ttrel x1 y), PV.val (wilc x1 y),
        PV.NIL) ∧
     (bootstrap ppf cdf rp boot tt1 ttind ttrel wilc mwu f x1 (some y)
        true alpha_level reps).toOption.map Result.stat_array =
      some (npSort (boot (List.zipWith (fun a b => a - b) y x1)))) ∧
    ((bootstrap ppf cdf rp boot tt1 ttind ttrel wilc mwu f x1 (some y)
        false alpha_level reps).toOption.map (fun r =>
          (r.pvalue_1samp_ttest, r.pvalue_2samp_ind_ttest,
           r.pvalue_2samp_paired_ttest, r.pvalue_wilcoxon,
           r.pvalue_mannWhitney)) =
      some (PV.NIL, PV.val (ttind x1 y), PV.NIL, PV.NIL,
        PV.val (mwu x1 y))) := by
  have hly : ¬(x1.length ≠ y.length) := by simp [hlen]
  refine ⟨⟨?_, ?_⟩, ⟨?_, ?_⟩, ?_⟩
  · simp only [bootstrap, if_neg ha]
    rfl
  · simp only [bootstrap, if_neg ha]
    rfl
  · simp only [bootstrap, if_neg ha]
    show ((if x1.length ≠ y.length then Except.error BErr.lengthMismatch
      else Except.ok (assemble ppf cdf rp f
        (singlePairedBranch boot tt1 ttrel wilc f x1 (some y)
          [alpha_level / 2, 1 - alpha_level / 2] reps)
        [alpha_level / 2, 1 - alpha_level / 2] alpha_level
        reps)).toOption.map _) = _
    rw [if_neg hly]
    rfl
  · simp only [bootstrap, if_neg ha]
    show ((if x1.length ≠ y.length then Except.error BErr.lengthMismatch
      else Except.ok (assemble ppf cdf rp f
        (singlePairedBranch boot tt1 ttrel wilc f x1 (some y)
          [alpha_level / 2, 1 - alpha_level / 2] reps)
        [alpha_level / 2, 1 - alpha_level / 2] alpha_level
        reps)).toOption.map _) = _
    rw [if_neg hly]
    rfl
  · simp only [bootstrap, if_neg ha]
    rfl

/-- C8 witness: the mode table at a concrete instantiation of the
external services. -/
theorem claim_C8_witness :
    ¬((1 : ℚ) < 1/20 ∨ (1/20 : ℚ) < 0) ∧
    ([1, 2] : List ℚ).length = ([5, 9] : List ℚ).length ∧
    (((bootstrap (fun _ => FP.fin 0) (fun _ => FP.fin 0) (fun q => q)
        (fun _ => [0, 0]) (fun _ => 7) (fun _ _ => 8) (fun _ _ => 9)
        (fun _ _ => 10) (fun _ _ => 11) npMeanStat [1, 2] none false
        (1/20) 2).toOption.map (fun r =>
          (r.pvalue_1samp_ttest, r.pvalue_2samp_ind_ttest,
           r.pvalue_2samp_paired_ttest, r.pvalue_wilcoxon,
           r.pvalue_mannWhitney)) =
      some (PV.val ((fun _ : List ℚ => (7 : ℚ)) [1, 2]), PV.NIL, PV.NIL,
        PV.NIL, PV.NIL) ∧
     (bootstrap (fun _ => FP.fin 0) (fun _ => FP.fin 0) (fun q => q)
        (fun _ => [0, 0]) (fun _ => 7) (fun _ _ => 8) (fun _ _ => 9)
        (fun _ _ => 10) (fun _ _ => 11) npMeanStat [1, 2] none false
        (1/20) 2).toOption.map Result.stat_array =
      some (npSort ((fun _ : List ℚ => [(0 : ℚ), 0]) [1, 2]))) ∧
    ((bootstrap (fun _ => FP.fin 0) (fun _ => FP.fin 0) (fun q => q)
        (fun _ => [0, 0]) (fun _ => 7) (fun _ _ => 8) (fun _ _ => 9)
        (fun _ _ => 10) (fun _ _ => 11) npMeanStat [1, 2] (some [5, 9])
        true (1/20) 2).toOption.map (fun r =>
          (r.pvalue_1samp_ttest, r.pvalue_2samp_ind_ttest,
           r.pvalue_2samp_paired_ttest, r.pvalue_wilcoxon,
           r.pvalue_mannWhitney)) =
      some (PV.NIL, PV.NIL,
        PV.val ((fun _ _ : List ℚ => (9 : ℚ)) [1, 2] [5, 9]),
        PV.val ((fun _ _ : List ℚ => (10 : ℚ)) [1, 2] [5, 9]), PV.NIL) ∧
     (bootstrap (fun _ => FP.fin 0) (fun _ => FP.fin 0) (fun q => q)
        (fun _ => [0, 0]) (fun _ => 7) (fun _ _ => 8) (fun _ _ => 9)
        (fun _ _ => 10) (fun _ _ => 11) npMeanStat [1, 2] (some [5, 9])
        true (1/20) 2).toOption.map Result.stat_array =
      some (npSort ((fun _ : List ℚ => [(0 : ℚ), 0])
        (List.zipWith (fun a b => a - b) [5, 9] [1, 2])))) ∧
    ((bootstrap (fun _ => FP.fin 0) (fun _ => FP.fin 0) (fun q => q)
        (fun _ => [0, 0]) (fun _ => 7) (fun _ _ => 8) (fun _ _ => 9)
        (fun _ _ => 10) (fun _ _ => 11) npMeanStat [1, 2] (some [5, 9])
        false (1/20) 2).toOption.map (fun r =>
          (r.pvalue_1samp_ttest, r.pvalue_2samp_ind_ttest,
           r.pvalue_2samp_paired_ttest, r.pvalue_wilcoxon,
           r.pvalue_mannWhitney)) =
      some (PV.NIL, PV.val ((fun _ _ : List ℚ => (8 : ℚ)) [1, 2] [5, 9]),
        PV.NIL, PV.NIL,
        PV.val ((fun _ _ : List ℚ => (11 : ℚ)) [1, 2] [5, 9])))) :=
  ⟨by norm_num, rfl,
    claim_C8 (fun _ => FP.fin 0) (fun _ => FP.fin 0) (fun q => q)
      (fun _ => [0, 0]) (fun _ => 7) (fun _ _ => 8) (fun _ _ => 9)
      (fun _ _ => 10) (fun _ _ => 11) npMeanStat [1, 2] [5, 9] (1/20) 2
      (by norm_num) rfl⟩

theorem mem_stabilityWarns_extremal (reps : ℕ) (pairs : List (List ℤ)) :
    Warn.extremalSample ∈ stabilityWarns reps pairs ↔
      ∃ ind ∈ pairs, ind.any
        (fun k => decide (k = 0) || decide (k = (reps : ℤ) - 1))
        = true := by
  induction pairs with
  | nil => simp [stabilityWarns]
  | cons ind rest ih =>
    by_cases hA : ind.any
        (fun k => decide (k = 0) || decide (k = (reps : ℤ) - 1)) = true
    · rw [stabilityWarns, if_pos hA]
      constructor
      · intro _
        exact ⟨ind, List.mem_cons_self ind rest, hA⟩
      · intro _
        exact List.mem_cons_self _ _
    · rw [stabilityWarns, if_neg hA]
      have hmem : Warn.extremalSample ∈ (if ind.any
            (fun k => decide (k < 10) || decide ((reps : ℤ) - 10 ≤ k))
              = true then
            Warn.topTen :: stabilityWarns reps rest
          else stabilityWarns reps rest) ↔
          Warn.extremalSample ∈ stabilityWarns reps rest := by
        split
        · simp
        · exact Iff.rfl
      rw [hmem, ih]
      constructor
      · rintro ⟨i2, hi2, h⟩
        exact ⟨i2, List.mem_cons_of_mem _ hi2, h⟩
      · rintro ⟨i2, hi2, h⟩
        rcases List.mem_cons.mp hi2 with rfl | hi2
        · exact absurd h hA
        · exact ⟨i2, hi2, h⟩

theorem mem_stabilityWarns_topTen (reps : ℕ) (pairs : List (List ℤ)) :
    Warn.topTen ∈ stabilityWarns reps pairs ↔
      ∃ ind ∈ pairs,
        ind.any (fun k => decide (k = 0) || decide (k = (reps : ℤ) - 1))
          = false ∧
        ind.any (fun k => decide (k < 10) || decide ((reps : ℤ) - 10 ≤ k))
          = true := by
  induction pairs with
  | nil => simp [stabilityWarns]
  | cons ind rest ih =>
    by_cases hA : ind.any
        (fun k => decide (k = 0) || decide (k = (reps : ℤ) - 1)) = true
    · rw [stabilityWarns, if_pos hA]
      have hmem : Warn.topTen ∈
          Warn.extremalSample :: stabilityWarns reps rest ↔
          Warn.topTen ∈ stabilityWarns reps rest := by
        simp
      rw [hmem, ih]
      constructor
      · rintro ⟨i2, hi2, h⟩
        exact ⟨i2, List.mem_cons_of_mem _ hi2, h⟩
      · rintro ⟨i2, hi2, hf, ht⟩
        rcases List.mem_cons.mp hi2 with rfl | hi2
        · rw [hA] at hf
          cases hf
        · exact ⟨i2, hi2, hf, ht⟩
    · have hAf : ind.any
          (fun k => decide (k = 0) || decide (k = (reps : ℤ) - 1))
            = false := by
        rcases Bool.eq_false_or_eq_true (ind.any
          (fun k => decide (k = 0) || decide (k = (reps : ℤ) - 1))) with
          h | h
        · exact absurd h hA
        · exact h
      by_cases hB : ind.any
          (fun k => decide (k < 10) || decide ((reps : ℤ) - 10 ≤ k)) = true
      · rw [stabilityWarns, if_neg hA, if_pos hB]
        constructor
        · intro _
          exact ⟨ind, List.mem_cons_self _ _, hAf, hB⟩
        · intro _
          exact List.mem_cons_self _ _
      · rw [stabilityWarns, if_neg hA, if_neg hB, ih]
        constructor
        · rintro ⟨i2, hi2, h⟩
          exact ⟨i2, List.mem_cons_of_mem _ hi2, h⟩
        · rintro ⟨i2, hi2, hf, ht⟩
          rcases List.mem_cons.mp hi2 with rfl | hi2
          · exact absurd ht hB
          · exact ⟨i2, hi2, hf, ht⟩

theorem assemble_warns (ppf : ℚ → FP) (cdf : FP → FP) (rp : ℚ → ℚ)
    (statfunction : List (List ℚ) → ℚ) (co : CoreOut) (alphas : List ℚ)
    (alpha_level : ℚ) (reps : ℕ) :
    ∃ pre, (assemble ppf cdf rp statfunction co alphas alpha_level
        reps).warns =
      pre ++ stabilityWarns reps
        [(assemble ppf cdf rp statfunction co alphas alpha_level
          reps).pct_low_high_indices,
         (assemble ppf cdf rp statfunction co alphas alpha_level
          reps).bca_low_high_indices] ∧
      Warn.extremalSample ∉ pre ∧ Warn.topTen ∉ pre := by
  refine ⟨if (bca ppf cdf rp statfunction co.tdata alphas co.statarray
    co.summ_stat reps).2 then [Warn.accelUndefined] else [], rfl, ?_, ?_⟩
  · split <;> simp
  · split <;> simp

/-- C9: after both index pairs are computed, an extremal-sample warning
is emitted whenever any index of either pair equals `0` or `reps-1`;
otherwise a top-10 warning is emitted exactly when some index lies in
the 10 most extreme ranks of either tail; the warnings are advisory —
the result's warning list consists of these stability warnings (beside
the acceleration warning, which is neither of the two), and in every
mode the computation completes and populates the result. -/
theorem claim_C9 (ppf : ℚ → FP) (cdf : FP → FP) (rp : ℚ → ℚ)
    (boot : List ℚ → List ℚ) (tt1 : List ℚ → ℚ)
    (ttind ttrel wilc mwu : List ℚ → List ℚ → ℚ)
    (f : List (List ℚ) → ℚ) (x1 y : List ℚ) (x2 : Option (List ℚ))
    (paired : Bool) (alpha_level : ℚ) (reps : ℕ) (p b : List ℤ)
    (ha : ¬(1 < alpha_level ∨ alpha_level < 0))
    (hlen : x1.length = y.length) :
    ((∃ k, (k ∈ p ∨ k ∈ b) ∧ (k = 0 ∨ k = (reps : ℤ) - 1)) →
      Warn.extremalSample ∈ stabilityWarns reps [p, b]) ∧
    ((¬∃ k, (k ∈ p ∨ k ∈ b) ∧ (k = 0 ∨ k = (reps : ℤ) - 1)) →
      (Warn.topTen ∈ stabilityWarns reps [p, b] ↔
        ∃ k, (k ∈ p ∨ k ∈ b) ∧ (k < 10 ∨ (reps : ℤ) - 10 ≤ k))) ∧
    (∀ r, bootstrap ppf cdf rp boot tt1 ttind ttrel wilc mwu f x1 x2
        paired alpha_level reps = Except.ok r →
      ∃ pre, r.warns = pre ++ stabilityWarns reps
          [r.pct_low_high_indices, r.bca_low_high_indices] ∧
        Warn.extremalSample ∉ pre ∧ Warn.topTen ∉ pre) ∧
    exceptOk (bootstrap ppf cdf rp boot tt1 ttind ttrel wilc mwu f x1
      none false alpha_level reps) = true ∧
    exceptOk (bootstrap ppf cdf rp boot tt1 ttind ttrel wilc mwu f x1
      (some y) true alpha_level reps) = true ∧
    exceptOk (bootstrap ppf cdf rp boot tt1 ttind ttrel wilc mwu f x1
      (some y) false alpha_level reps) = true := by
  refine ⟨?_, ?_, ?_, ?_, ?_, ?_⟩
  · rintro ⟨k, hk, hex⟩
    rw [mem_stabilityWarns_extremal]
    have hany : ∀ l : List ℤ, k ∈ l → l.any
        (fun k => decide (k = 0) || decide (k = (reps : ℤ) - 1)) = true := by
      intro l hl
      rw [List.any_eq_true]
      refine ⟨k, hl, ?_⟩
      simp only [Bool.or_eq_true, decide_eq_true_eq]
      exact hex
    rcases hk with hk | hk
    · exact ⟨p, by simp, hany p hk⟩
    · exact ⟨b, by simp, hany b hk⟩
  · intro hno
    rw [mem_stabilityWarns_topTen]
    constructor
    · rintro ⟨ind, hind, hf, ht⟩
      rcases List.any_eq_true.mp ht with ⟨k, hk, hcond⟩
      have hk2 : k ∈ p ∨ k ∈ b := by
        rcases (show ind = p ∨ ind = b by simpa using hind) with rfl | rfl
        · exact Or.inl hk
        · exact Or.inr hk
      refine ⟨k, hk2, ?_⟩
      simp only [Bool.or_eq_true, decide_eq_true_eq] at hcond
      exact hcond
    · rintro ⟨k, hk, hcond⟩
      have hfl : ∀ l : List ℤ, (l = p ∨ l = b) → l.any
          (fun k => decide (k = 0) || decide (k = (reps : ℤ) - 1))
            = false := by
        intro l hl
        rcases Bool.eq_false_or_eq_true (l.any
          (fun k => decide (k = 0) || decide (k = (reps : ℤ) - 1))) with
          h | h
        · exfalso
          rcases List.any_eq_true.mp h with ⟨k2, hk2, hcond2⟩
          simp only [Bool.or_eq_true, decide_eq_true_eq] at hcond2
          apply hno
          refine ⟨k2, ?_, hcond2⟩
          rcases hl with rfl | rfl
          · exact Or.inl hk2
          · exact Or.inr hk2
        · exact h
      have hanyT : ∀ l : List ℤ, k ∈ l → l.any
          (fun k => decide (k < 10) || decide ((reps : ℤ) - 10 ≤ k))
            = true := by
        intro l hl
        rw [List.any_eq_true]
        refine ⟨k, hl, ?_⟩
        simp only [Bool.or_eq_true, decide_eq_true_eq]
        exact hcond
      rcases hk with hk | hk
      · exact ⟨p, by simp, hfl p (Or.inl rfl), hanyT p hk⟩
      · exact ⟨b, by simp, hfl b (Or.inr rfl), hanyT b hk⟩
  · intro r hr
    simp only [bootstrap, if_neg ha] at hr
    cases paired <;> rcases x2 with _ | y2
    · simp only [Except.ok.injEq] at hr
      subst hr
      exact assemble_warns ppf cdf rp f _ _ alpha_level reps
    · simp only [Except.ok.injEq] at hr
      subst hr
      exact assemble_warns ppf cdf rp f _ _ alpha_level reps
    · exact absurd hr (by simp)
    · have hr2 : (if x1.length ≠ y2.length then
          Except.error BErr.lengthMismatch
        else Except.ok (assemble ppf cdf rp f
          (singlePairedBranch boot tt1 ttrel wilc f x1 (some y2)
            [alpha_level / 2, 1 - alpha_level / 2] reps)
          [alpha_level / 2, 1 - alpha_level / 2] alpha_level reps))
          = Except.ok r := hr
      by_cases hly : x1.length ≠ y2.length
      · rw [if_pos hly] at hr2
        exact absurd hr2 (by simp)
      · rw [if_neg hly] at hr2
        simp only [Except.ok.injEq] at hr2
        subst hr2
        exact assemble_warns ppf cdf rp f _ _ alpha_level reps
  · simp only [bootstrap, if_neg ha]
    rfl
  · simp only [bootstrap, if_neg ha]
    have hly : ¬(x1.length ≠ y.length) := by simp [hlen]
    show exceptOk (if x1.length ≠ y.length then
        Except.error BErr.lengthMismatch
      else Except.ok (assemble ppf cdf rp f
        (singlePairedBranch boot tt1 ttrel wilc f x1 (some y)
          [alpha_level / 2, 1 - alpha_level / 2] reps)
        [alpha_level / 2, 1 - alpha_level / 2] alpha_level reps)) = true
    rw [if_neg hly]
    rfl
  · simp only [bootstrap, if_neg ha]
    rfl

/-- C9 witness: the warning and completion statements at concrete index
pairs and a concrete valid invocation. -/
theorem claim_C9_witness :
    ¬((1 : ℚ) < 1/20 ∨ (1/20 : ℚ) < 0) ∧
    ([1, 2] : List ℚ).length = ([5, 9] : List ℚ).length ∧
    (((∃ k, (k ∈ ([0, 5] : List ℤ) ∨ k ∈ ([3, 4] : List ℤ)) ∧
        (k = 0 ∨ k = (20 : ℤ) - 1)) →
      Warn.extremalSample ∈ stabilityWarns 20 [[0, 5], [3, 4]]) ∧
    ((¬∃ k, (k ∈ ([0, 5] : List ℤ) ∨ k ∈ ([3, 4] : List ℤ)) ∧
        (k = 0 ∨ k = (20 : ℤ) - 1)) →
      (Warn.topTen ∈ stabilityWarns 20 [[0, 5], [3, 4]] ↔
        ∃ k, (k ∈ ([0, 5] : List ℤ) ∨ k ∈ ([3, 4] : List ℤ)) ∧
          (k < 10 ∨ (20 : ℤ) - 10 ≤ k))) ∧
    (∀ r, bootstrap (fun _ => FP.fin 0) (fun _ => FP.fin 0) (fun q => q)
        (fun _ => [0, 0]) (fun _ => 0) (fun _ _ => 0) (fun _ _ => 0)
        (fun _ _ => 0) (fun _ _ => 0) npMeanStat [1, 2] none false
        (1/20) 20 = Except.ok r →
      ∃ pre, r.warns = pre ++ stabilityWarns 20
          [r.pct_low_high_indices, r.bca_low_high_indices] ∧
        Warn.extremalSample ∉ pre ∧ Warn.topTen ∉ pre) ∧
    exceptOk (bootstrap (fun _ => FP.fin 0) (fun _ => FP.fin 0)
      (fun q => q) (fun _ => [0, 0]) (fun _ => 0) (fun _ _ => 0)
      (fun _ _ => 0) (fun _ _ => 0) (fun _ _ => 0) npMeanStat [1, 2]
      none false (1/20) 20) = true ∧
    exceptOk (bootstrap (fun _ => FP.fin 0) (fun _ => FP.fin 0)
      (fun q => q) (fun _ => [0, 0]) (fun _ => 0) (fun _ _ => 0)
      (fun _ _ => 0) (fun _ _ => 0) (fun _ _ => 0) npMeanStat [1, 2]
      (some [5, 9]) true (1/20) 20) = true ∧
    exceptOk (bootstrap (fun _ => FP.fin 0) (fun _ => FP.fin 0)
      (fun q => q) (fun _ => [0, 0]) (fun _ => 0) (fun _ _ => 0)
      (fun _ _ => 0) (fun _ _ => 0) (fun _ _ => 0) npMeanStat [1, 2]
      (some [5, 9]) false (1/20) 20) = true) :=
  ⟨by norm_num, rfl,
    claim_C9 (fun _ => FP.fin 0) (fun _ => FP.fin 0) (fun q => q)
      (fun _ => [0, 0]) (fun _ => 0) (fun _ _ => 0) (fun _ _ => 0)
      (fun _ _ => 0) (fun _ _ => 0) npMeanStat [1, 2] [5, 9] none false
      (1/20) 20 [0, 5] [3, 4] (by norm_num) rfl⟩
